import Mathlib

/-!
Verification of the Product model layer (`service/models.py`).

The development shallowly embeds the Product entity, its wire
serialization, and the query/persistence operations.  Python `Decimal`
values are modelled by `PyDecimal` (sign, coefficient, exponent), with
`PyDecimal.toChars` translated from `Decimal.__str__` and
`parseDecChars` translated from the decimal string grammar used by
`Decimal(str)` (finite numbers; the special values NaN/Infinity and
PEP 515 underscores never arise from serialized output and are not
modelled).  Wire payloads are association lists of `PyValue`s, the
dynamic values a decoded JSON-like payload can hold here.
-/

/-- A decoded payload value: the dynamically typed values that appear in
the wire maps handled by `serialize`/`deserialize`. -/
inductive PyValue where
  | none
  | bool (b : Bool)
  | int (n : Int)
  | str (s : String)
deriving DecidableEq, Repr

/-- Python exceptions relevant to `models.py`. -/
inductive PyExn where
  | keyError (k : String)
  | attributeError (msg : String)
  | typeError (msg : String)
  | invalidOperation (msg : String)
deriving DecidableEq, Repr

/-- The character for a single decimal digit `d` (0 ≤ d ≤ 9). -/
def digitChar (d : Nat) : Char := Char.ofNat (48 + d)

/-- Numeric value of a digit character. -/
def charVal (c : Char) : Nat := c.toNat - 48

/-- Is `c` one of the ASCII digits `'0'`–`'9'`? -/
def isDigitChar (c : Char) : Bool := decide (48 ≤ c.toNat) && decide (c.toNat ≤ 57)

/-- The big-endian digit characters of a natural number; `0` prints as `"0"`.
This is the coefficient string `self._int` of a Python `Decimal`. -/
def coeffDigits (n : Nat) : List Char :=
  if n = 0 then ['0'] else (Nat.digits 10 n).reverse.map digitChar

/-- Numeric value of a big-endian string of digit characters. -/
def natFromDigits (ds : List Char) : Nat :=
  ds.foldl (fun a c => 10 * a + charVal c) 0

/-- The six ASCII whitespace characters stripped by Python `str.strip()`
(unicode whitespace never arises in the strings of this development). -/
def pyWhitespace (c : Char) : Bool :=
  c == ' ' || c == '\t' || c == '\n' || c == '\r' || c == '\x0b' || c == '\x0c'

/-- Strip characters satisfying `p` from both ends of a character list,
as Python `str.strip` does. -/
def stripP (p : Char → Bool) (l : List Char) : List Char :=
  ((l.dropWhile p).reverse.dropWhile p).reverse

/-- A Python `Decimal` finite number: `(-1)^sign * coeff * 10^exp`. -/
structure PyDecimal where
  sign : Bool
  coeff : Nat
  exp : Int
deriving DecidableEq, Repr

/-- The digit/point part of `Decimal.__str__`: `intpart + fracpart` built
from the coefficient digits `ds` and the dot position `dotplace`. -/
def decBody (ds : List Char) (dotplace : Int) : List Char :=
  if dotplace ≤ 0 then
    '0' :: '.' :: (List.replicate (-dotplace).toNat '0' ++ ds)
  else if (ds.length : Int) ≤ dotplace then
    ds ++ List.replicate (dotplace - (ds.length : Int)).toNat '0'
  else
    ds.take dotplace.toNat ++ '.' :: ds.drop dotplace.toNat

/-- The exponent part of `Decimal.__str__`: empty when the adjusted
exponent equals the dot position, otherwise `E%+d`. -/
def decExpPart (k : Int) : List Char :=
  if k = 0 then [] else 'E' :: (if 0 ≤ k then '+' else '-') :: coeffDigits k.natAbs

/-- The dot position chosen by `Decimal.__str__` (non-engineering form):
the adjusted position `exp + len(digits)` when the number prints without
an exponent, else `1`. -/
def decDotplace (e : Int) (len : Nat) : Int :=
  if e ≤ 0 ∧ -6 < e + (len : Int) then e + (len : Int) else 1

/-- Model of `str(d)` for a finite Python `Decimal`, translated from
`Decimal.__str__`. -/
def PyDecimal.toChars (x : PyDecimal) : List Char :=
  (if x.sign then ['-'] else []) ++
    decBody (coeffDigits x.coeff) (decDotplace x.exp (coeffDigits x.coeff).length) ++
    decExpPart (x.exp + ((coeffDigits x.coeff).length : Int) -
      decDotplace x.exp (coeffDigits x.coeff).length)

/-- Model of `str(d)` as a `String`. -/
def PyDecimal.pyStr (x : PyDecimal) : String := ⟨x.toChars⟩

/-- Consume an optional leading sign, returning whether it was `'-'`. -/
def dropSign (cs : List Char) : Bool × List Char :=
  match cs with
  | [] => (false, [])
  | c :: rest =>
    if c = '-' then (true, rest)
    else if c = '+' then (false, rest)
    else (false, c :: rest)

/-- Parse the exponent digits (with optional sign) that follow `e`/`E`;
they must extend to the end of the string. -/
def parseExp (cs : List Char) : Option Int :=
  if (dropSign cs).2 = [] then Option.none
  else if (dropSign cs).2.all isDigitChar then
    Option.some
      (if (dropSign cs).1 then -(natFromDigits (dropSign cs).2 : Int)
       else (natFromDigits (dropSign cs).2 : Int))
  else Option.none

/-- After the integer digits, consume an optional `'.'` followed by
fraction digits; returns the fraction digits and the remaining input. -/
def splitFrac (cs : List Char) : List Char × List Char :=
  match cs with
  | [] => ([], [])
  | c :: r =>
    if c = '.' then (r.takeWhile isDigitChar, r.dropWhile isDigitChar) else ([], c :: r)

/-- Parse the unsigned part of a decimal numeric string: digits, optional
fraction, optional exponent; returns the coefficient and exponent. -/
def parseUnsigned (cs : List Char) : Option (Nat × Int) :=
  if (cs.takeWhile isDigitChar).length + (splitFrac (cs.dropWhile isDigitChar)).1.length = 0 then
    Option.none
  else
    match (splitFrac (cs.dropWhile isDigitChar)).2 with
    | [] =>
      Option.some (natFromDigits (cs.takeWhile isDigitChar ++ (splitFrac (cs.dropWhile isDigitChar)).1),
        -(((splitFrac (cs.dropWhile isDigitChar)).1.length : Nat) : Int))
    | e :: r =>
      if e = 'e' ∨ e = 'E' then
        match parseExp r with
        | Option.some k =>
          Option.some (natFromDigits (cs.takeWhile isDigitChar ++ (splitFrac (cs.dropWhile isDigitChar)).1),
            k - (((splitFrac (cs.dropWhile isDigitChar)).1.length : Nat) : Int))
        | Option.none => Option.none
      else Option.none

/-- Model of `Decimal(s)` on a finite numeric string: strip whitespace, consume an
optional sign, then the numeric body.  `Option.none` models the
`decimal.InvalidOperation` conversion failure. -/
def parseDecChars (cs : List Char) : Option PyDecimal :=
  match parseUnsigned (dropSign (stripP pyWhitespace cs)).2 with
  | Option.some ne => Option.some ⟨(dropSign (stripP pyWhitespace cs)).1, ne.1, ne.2⟩
  | Option.none => Option.none

/-- Characters stripped by `price.strip(' "')` in `find_by_price`. -/
def spaceQuote (c : Char) : Bool := c == ' ' || c == '"'

section ListLemmas

variable {p : Char → Bool} {a : Char} {l r t : List Char}

lemma takeWhile_cons_pos (h : p a = true) (t : List Char) :
    (a :: t).takeWhile p = a :: t.takeWhile p := by
  simp [List.takeWhile_cons, h]

lemma takeWhile_cons_neg (h : p a = false) (t : List Char) :
    (a :: t).takeWhile p = [] := by
  simp [List.takeWhile_cons, h]

lemma dropWhile_cons_pos (h : p a = true) (t : List Char) :
    (a :: t).dropWhile p = t.dropWhile p := by
  simp [List.dropWhile_cons, h]

lemma dropWhile_cons_neg (h : p a = false) (t : List Char) :
    (a :: t).dropWhile p = a :: t := by
  simp [List.dropWhile_cons, h]

lemma takeWhile_append_all (h : ∀ c ∈ l, p c = true) (r : List Char) :
    (l ++ r).takeWhile p = l ++ r.takeWhile p := by
  induction l with
  | nil => simp
  | cons a t ih =>
    rw [List.cons_append, takeWhile_cons_pos (h a (by simp)), ih (fun c hc => h c (by simp [hc]))]
    simp

lemma dropWhile_append_all (h : ∀ c ∈ l, p c = true) (r : List Char) :
    (l ++ r).dropWhile p = r.dropWhile p := by
  induction l with
  | nil => simp
  | cons a t ih =>
    rw [List.cons_append, dropWhile_cons_pos (h a (by simp))]
    exact ih (fun c hc => h c (by simp [hc]))

lemma takeWhile_all (h : ∀ c ∈ l, p c = true) : l.takeWhile p = l := by
  have := takeWhile_append_all h ([] : List Char)
  simpa using this

lemma dropWhile_all (h : ∀ c ∈ l, p c = true) : l.dropWhile p = [] := by
  have := dropWhile_append_all h ([] : List Char)
  simpa using this

lemma dropWhile_eq_self_of_all (h : ∀ c ∈ l, p c = false) : l.dropWhile p = l := by
  cases l with
  | nil => rfl
  | cons a t => exact dropWhile_cons_neg (h a (by simp)) t

lemma stripP_eq_self (h : ∀ c ∈ l, p c = false) : stripP p l = l := by
  unfold stripP
  rw [dropWhile_eq_self_of_all h,
    dropWhile_eq_self_of_all (fun c hc => h c (List.mem_reverse.1 hc)), List.reverse_reverse]

lemma stripP_wrap {pre mid post : List Char}
    (hpre : ∀ c ∈ pre, p c = true) (hpost : ∀ c ∈ post, p c = true)
    (hmid : ∀ c ∈ mid, p c = false) (hne : mid ≠ []) :
    stripP p (pre ++ mid ++ post) = mid := by
  obtain ⟨a, t, rfl⟩ : ∃ a t, mid = a :: t := by
    cases mid with
    | nil => exact absurd rfl hne
    | cons a t => exact ⟨a, t, rfl⟩
  unfold stripP
  rw [List.append_assoc, dropWhile_append_all hpre, List.cons_append,
    dropWhile_cons_neg (hmid a (by simp))]
  rw [show a :: (t ++ post) = (a :: t) ++ post from rfl, List.reverse_append,
    dropWhile_append_all (fun c hc => hpost c (List.mem_reverse.1 hc)),
    dropWhile_eq_self_of_all (fun c hc => hmid c (List.mem_reverse.1 hc)), List.reverse_reverse]

end ListLemmas

section DigitLemmas

lemma foldl_digits_acc (l : List Char) (a : Nat) :
    l.foldl (fun a c => 10 * a + charVal c) a = a * 10 ^ l.length + natFromDigits l := by
  induction l generalizing a with
  | nil => simp [natFromDigits]
  | cons c t ih =>
    show t.foldl _ (10 * a + charVal c) = a * 10 ^ (t.length + 1) + natFromDigits (c :: t)
    rw [ih]
    have h2 : natFromDigits (c :: t) = charVal c * 10 ^ t.length + natFromDigits t := by
      show t.foldl _ (10 * 0 + charVal c) = _
      rw [ih]
      ring_nf
    rw [h2]
    ring

lemma natFromDigits_append (a b : List Char) :
    natFromDigits (a ++ b) = natFromDigits a * 10 ^ b.length + natFromDigits b := by
  show (a ++ b).foldl _ 0 = _
  rw [List.foldl_append]
  exact foldl_digits_acc b _

lemma natFromDigits_replicate_zero (k : Nat) (ds : List Char) :
    natFromDigits (List.replicate k '0' ++ ds) = natFromDigits ds := by
  induction k with
  | zero => simp
  | succ n ih =>
    rw [List.replicate_succ, List.cons_append]
    show (List.replicate n '0' ++ ds).foldl _ (10 * 0 + charVal '0') = _
    have h0 : 10 * 0 + charVal '0' = 0 := by decide
    rw [h0]
    exact ih

lemma toNat_digitChar {d : Nat} (h : d < 10) : (digitChar d).toNat = 48 + d := by
  interval_cases d <;> rfl

lemma charVal_digitChar {d : Nat} (h : d < 10) : charVal (digitChar d) = d := by
  unfold charVal
  rw [toNat_digitChar h]
  omega

lemma isDigitChar_digitChar {d : Nat} (h : d < 10) : isDigitChar (digitChar d) = true := by
  unfold isDigitChar
  rw [toNat_digitChar h]
  simp
  omega

lemma natFromDigits_revMap (L : List Nat) (h : ∀ d ∈ L, d < 10) :
    natFromDigits (L.reverse.map digitChar) = Nat.ofDigits 10 L := by
  induction L with
  | nil => rfl
  | cons d t ih =>
    rw [List.reverse_cons, List.map_append, natFromDigits_append, Nat.ofDigits_cons,
      ih (fun x hx => h x (by simp [hx]))]
    have h1 : natFromDigits (List.map digitChar [d]) = d := by
      show 10 * 0 + charVal (digitChar d) = d
      rw [charVal_digitChar (h d (by simp))]
      omega
    rw [h1]
    simp
    ring

lemma coeffDigits_ne_nil (n : Nat) : coeffDigits n ≠ [] := by
  unfold coeffDigits
  split
  · simp
  · next h =>
    simp only [ne_eq, List.map_eq_nil_iff, List.reverse_eq_nil_iff]
    exact Nat.digits_ne_nil_iff_ne_zero.2 h

lemma coeffDigits_all_digit (n : Nat) : ∀ c ∈ coeffDigits n, isDigitChar c = true := by
  intro c hc
  unfold coeffDigits at hc
  split at hc
  · simp at hc
    subst hc
    decide
  · simp only [List.mem_map, List.mem_reverse] at hc
    obtain ⟨d, hd, rfl⟩ := hc
    exact isDigitChar_digitChar (Nat.digits_lt_base (by norm_num) hd)

lemma natFromDigits_coeffDigits (n : Nat) : natFromDigits (coeffDigits n) = n := by
  unfold coeffDigits
  split
  · subst_vars
    decide
  · rw [natFromDigits_revMap _ (fun d hd => Nat.digits_lt_base (by norm_num) hd),
      Nat.ofDigits_digits]

lemma digit_not_special {c : Char} (h : isDigitChar c = true) :
    c ≠ '-' ∧ c ≠ '+' ∧ c ≠ '.' ∧ c ≠ 'E' ∧ pyWhitespace c = false ∧ spaceQuote c = false := by
  refine ⟨?_, ?_, ?_, ?_, ?_, ?_⟩
  · intro hq; subst hq; exact absurd h (by decide)
  · intro hq; subst hq; exact absurd h (by decide)
  · intro hq; subst hq; exact absurd h (by decide)
  · intro hq; subst hq; exact absurd h (by decide)
  · cases hw : pyWhitespace c
    · rfl
    · exfalso
      have hcs : c = ' ' ∨ c = '\t' ∨ c = '\n' ∨ c = '\r' ∨ c = '\x0b' ∨ c = '\x0c' := by
        simpa [pyWhitespace, or_assoc] using hw
      rcases hcs with rfl | rfl | rfl | rfl | rfl | rfl <;> exact absurd h (by decide)
  · cases hw : spaceQuote c
    · rfl
    · exfalso
      have hcs : c = ' ' ∨ c = '"' := by
        simpa [spaceQuote] using hw
      rcases hcs with rfl | rfl <;> exact absurd h (by decide)

end DigitLemmas

section ParseEval

lemma isDigitChar_dot : isDigitChar '.' = false := by decide
lemma isDigitChar_E : isDigitChar 'E' = false := by decide

lemma parseExp_expPart (k : Int) :
    parseExp ((if 0 ≤ k then '+' else '-') :: coeffDigits k.natAbs) = Option.some k := by
  have hall : (coeffDigits k.natAbs).all isDigitChar = true :=
    List.all_eq_true.2 (coeffDigits_all_digit k.natAbs)
  have hnn : coeffDigits k.natAbs ≠ [] := coeffDigits_ne_nil k.natAbs
  have hval : natFromDigits (coeffDigits k.natAbs) = k.natAbs := natFromDigits_coeffDigits _
  by_cases h0 : 0 ≤ k
  · rw [if_pos h0]
    unfold parseExp
    rw [show dropSign ('+' :: coeffDigits k.natAbs) = (false, coeffDigits k.natAbs) from by
      simp [dropSign]]
    simp only [hall, if_true, if_neg hnn, hval, Bool.false_eq_true, if_false]
    have hk2 : ((k.natAbs : Nat) : Int) = k := by omega
    rw [hk2]
  · rw [if_neg h0]
    unfold parseExp
    rw [show dropSign ('-' :: coeffDigits k.natAbs) = (true, coeffDigits k.natAbs) from by
      simp [dropSign]]
    simp only [hall, if_true, if_neg hnn, hval]
    have hk2 : -((k.natAbs : Nat) : Int) = k := by omega
    rw [hk2]

lemma parseUnsigned_digits {ds : List Char} (hne : ds ≠ [])
    (hd : ∀ c ∈ ds, isDigitChar c = true) :
    parseUnsigned ds = Option.some (natFromDigits ds, 0) := by
  unfold parseUnsigned
  rw [takeWhile_all hd, dropWhile_all hd]
  simp only [splitFrac, List.length_nil, Nat.add_zero, List.append_nil]
  rw [if_neg (by simpa using hne)]
  simp

lemma parseUnsigned_dot {intD frac : List Char}
    (hi : ∀ c ∈ intD, isDigitChar c = true) (hf : ∀ c ∈ frac, isDigitChar c = true)
    (hne : intD.length + frac.length ≠ 0) :
    parseUnsigned (intD ++ '.' :: frac) =
      Option.some (natFromDigits (intD ++ frac), -(frac.length : Int)) := by
  unfold parseUnsigned
  rw [takeWhile_append_all hi, takeWhile_cons_neg isDigitChar_dot,
    dropWhile_append_all hi, dropWhile_cons_neg isDigitChar_dot]
  rw [show splitFrac ('.' :: frac) = (frac.takeWhile isDigitChar, frac.dropWhile isDigitChar) from by
    simp [splitFrac]]
  rw [takeWhile_all hf, dropWhile_all hf]
  simp only [List.append_nil]
  rw [if_neg hne]

lemma parseUnsigned_digits_exp {ds r : List Char} {k : Int} (hne : ds ≠ [])
    (hd : ∀ c ∈ ds, isDigitChar c = true) (hr : parseExp r = Option.some k) :
    parseUnsigned (ds ++ 'E' :: r) = Option.some (natFromDigits ds, k) := by
  unfold parseUnsigned
  rw [takeWhile_append_all hd, takeWhile_cons_neg isDigitChar_E,
    dropWhile_append_all hd, dropWhile_cons_neg isDigitChar_E]
  rw [show splitFrac ('E' :: r) = ([], 'E' :: r) from by simp [splitFrac]]
  simp only [List.length_nil, Nat.add_zero, List.append_nil]
  rw [if_neg (by simpa using hne)]
  simp [hr]

lemma parseUnsigned_dot_exp {intD frac r : List Char} {k : Int}
    (hi : ∀ c ∈ intD, isDigitChar c = true) (hf : ∀ c ∈ frac, isDigitChar c = true)
    (hne : intD.length + frac.length ≠ 0) (hr : parseExp r = Option.some k) :
    parseUnsigned (intD ++ '.' :: (frac ++ 'E' :: r)) =
      Option.some (natFromDigits (intD ++ frac), k - (frac.length : Int)) := by
  unfold parseUnsigned
  rw [takeWhile_append_all hi, takeWhile_cons_neg isDigitChar_dot,
    dropWhile_append_all hi, dropWhile_cons_neg isDigitChar_dot]
  rw [show splitFrac ('.' :: (frac ++ 'E' :: r)) =
      ((frac ++ 'E' :: r).takeWhile isDigitChar, (frac ++ 'E' :: r).dropWhile isDigitChar) from by
    simp [splitFrac]]
  rw [takeWhile_append_all hf, takeWhile_cons_neg isDigitChar_E,
    dropWhile_append_all hf, dropWhile_cons_neg isDigitChar_E]
  simp only [List.append_nil]
  rw [if_neg hne]
  simp [hr]

/-- The unsigned body and exponent part printed by `Decimal.__str__`
parse back to the coefficient digits and original exponent. -/
lemma parseUnsigned_decBody (ds : List Char) (e : Int) (hdne : ds ≠ [])
    (hdall : ∀ c ∈ ds, isDigitChar c = true) :
    parseUnsigned (decBody ds (decDotplace e ds.length) ++
        decExpPart (e + (ds.length : Int) - decDotplace e ds.length)) =
      Option.some (natFromDigits ds, e) := by
  have hL : 1 ≤ (ds.length : Int) := by
    have h := List.length_pos.2 hdne
    omega
  unfold decDotplace
  by_cases hc : e ≤ 0 ∧ -6 < e + (ds.length : Int)
  · rw [if_pos hc]
    rw [show e + (ds.length : Int) - (e + (ds.length : Int)) = 0 from by ring]
    rw [show decExpPart 0 = [] from by simp [decExpPart], List.append_nil]
    unfold decBody
    by_cases h1 : e + (ds.length : Int) ≤ 0
    · rw [if_pos h1]
      show parseUnsigned
        (['0'] ++ '.' :: (List.replicate (-(e + (ds.length : Int))).toNat '0' ++ ds)) = _
      rw [parseUnsigned_dot (by decide)
        (fun c hc' => by
          rcases List.mem_append.1 hc' with h | h
          · rw [List.eq_of_mem_replicate h]; decide
          · exact hdall c h)
        (by simp)]
      have hv : natFromDigits
          (['0'] ++ (List.replicate (-(e + (ds.length : Int))).toNat '0' ++ ds)) =
          natFromDigits ds := by
        rw [show (['0'] : List Char) ++ (List.replicate (-(e + (ds.length : Int))).toNat '0' ++ ds)
            = List.replicate ((-(e + (ds.length : Int))).toNat + 1) '0' ++ ds from by
          rw [List.replicate_succ]
          simp]
        exact natFromDigits_replicate_zero _ ds
      rw [hv]
      have hlen : -(((List.replicate (-(e + (ds.length : Int))).toNat '0' ++ ds).length : Nat) : Int)
          = e := by
        rw [List.length_append, List.length_replicate]
        omega
      rw [hlen]
    · rw [if_neg h1]
      by_cases h2 : (ds.length : Int) ≤ e + (ds.length : Int)
      · rw [if_pos h2]
        have he0 : e = 0 := by omega
        subst he0
        rw [show ((0 : Int) + (ds.length : Int) - (ds.length : Int)).toNat = 0 from by omega]
        rw [List.replicate_zero, List.append_nil]
        rw [parseUnsigned_digits hdne hdall]
      · rw [if_neg h2]
        have ht : ((e + (ds.length : Int)).toNat : Int) = e + (ds.length : Int) := by omega
        have htlt : (e + (ds.length : Int)).toNat < ds.length := by omega
        rw [parseUnsigned_dot
          (fun c hc' => hdall c (List.take_subset _ _ hc'))
          (fun c hc' => hdall c (List.drop_subset _ _ hc'))
          (by rw [List.length_take, List.length_drop]; omega)]
        rw [List.take_append_drop]
        have hlen : -(((ds.drop (e + (ds.length : Int)).toNat).length : Nat) : Int) = e := by
          rw [List.length_drop]
          omega
        rw [hlen]
  · rw [if_neg hc]
    have hk : e + (ds.length : Int) - 1 ≠ 0 := by
      rcases not_and_or.1 hc with h | h <;> omega
    rw [show decExpPart (e + (ds.length : Int) - 1) =
        'E' :: ((if 0 ≤ e + (ds.length : Int) - 1 then '+' else '-') ::
          coeffDigits (e + (ds.length : Int) - 1).natAbs) from by
      simp [decExpPart, hk]]
    unfold decBody
    rw [if_neg (show ¬(1 : Int) ≤ 0 from by omega)]
    by_cases hS : (ds.length : Int) ≤ 1
    · rw [if_pos hS]
      rw [show ((1 : Int) - (ds.length : Int)).toNat = 0 from by omega]
      rw [List.replicate_zero, List.append_nil]
      rw [parseUnsigned_digits_exp hdne hdall (parseExp_expPart (e + (ds.length : Int) - 1))]
      rw [show e + (ds.length : Int) - 1 = e from by omega]
    · rw [if_neg hS]
      rw [show ((1 : Int)).toNat = 1 from rfl]
      rw [show (ds.take 1 ++ '.' :: ds.drop 1) ++
          ('E' :: ((if 0 ≤ e + (ds.length : Int) - 1 then '+' else '-') ::
            coeffDigits (e + (ds.length : Int) - 1).natAbs)) =
          ds.take 1 ++ '.' :: (ds.drop 1 ++
            'E' :: ((if 0 ≤ e + (ds.length : Int) - 1 then '+' else '-') ::
              coeffDigits (e + (ds.length : Int) - 1).natAbs)) from by simp]
      rw [parseUnsigned_dot_exp
        (fun c hc' => hdall c (List.take_subset _ _ hc'))
        (fun c hc' => hdall c (List.drop_subset _ _ hc'))
        (by rw [List.length_take, List.length_drop]; omega)
        (parseExp_expPart (e + (ds.length : Int) - 1))]
      rw [List.take_append_drop]
      have hlen : e + (ds.length : Int) - 1 - (((ds.drop 1).length : Nat) : Int) = e := by
        rw [List.length_drop]
        omega
      rw [hlen]

end ParseEval

lemma dropSign_head_digit {a : Char} (h : isDigitChar a = true) (r : List Char) :
    dropSign (a :: r) = (false, a :: r) := by
  simp [dropSign, (digit_not_special h).1, (digit_not_special h).2.1]

lemma decBody_head (ds : List Char) (dp : Int) (hdne : ds ≠ [])
    (hdall : ∀ c ∈ ds, isDigitChar c = true) :
    ∃ a t, decBody ds dp = a :: t ∧ isDigitChar a = true := by
  obtain ⟨d, ds', rfl⟩ : ∃ d ds', ds = d :: ds' := by
    cases ds with
    | nil => exact absurd rfl hdne
    | cons d ds' => exact ⟨d, ds', rfl⟩
  unfold decBody
  by_cases h1 : dp ≤ 0
  · rw [if_pos h1]
    exact ⟨'0', _, rfl, by decide⟩
  · rw [if_neg h1]
    by_cases h2 : (((d :: ds').length : Nat) : Int) ≤ dp
    · rw [if_pos h2]
      exact ⟨d, _, rfl, hdall d (by simp)⟩
    · rw [if_neg h2]
      obtain ⟨n, hn⟩ : ∃ n, dp.toNat = n + 1 := ⟨dp.toNat - 1, by omega⟩
      rw [hn, List.take_succ_cons]
      exact ⟨d, _, rfl, hdall d (by simp)⟩

/-- Every character printed by `Decimal.__str__` is a digit, sign, dot or
`E`: in particular none is whitespace, a space, or a double quote, so the
strips in `Decimal(str)` and `find_by_price` leave the string intact. -/
lemma toChars_not_stripped (x : PyDecimal) :
    ∀ c ∈ x.toChars, pyWhitespace c = false ∧ spaceQuote c = false := by
  intro c hc
  unfold PyDecimal.toChars at hc
  rcases List.mem_append.1 hc with h | h
  · rcases List.mem_append.1 h with h | h
    · split at h
      · simp at h
        subst h
        exact ⟨by decide, by decide⟩
      · simp at h
    · unfold decBody at h
      split at h
      · simp only [List.mem_cons, List.mem_append] at h
        rcases h with rfl | rfl | h | h
        · exact ⟨by decide, by decide⟩
        · exact ⟨by decide, by decide⟩
        · rw [List.eq_of_mem_replicate h]
          exact ⟨by decide, by decide⟩
        · have := digit_not_special (coeffDigits_all_digit _ c h)
          exact ⟨this.2.2.2.2.1, this.2.2.2.2.2⟩
      · split at h
        · rcases List.mem_append.1 h with h | h
          · have := digit_not_special (coeffDigits_all_digit _ c h)
            exact ⟨this.2.2.2.2.1, this.2.2.2.2.2⟩
          · rw [List.eq_of_mem_replicate h]
            exact ⟨by decide, by decide⟩
        · rcases List.mem_append.1 h with h | h
          · have := digit_not_special (coeffDigits_all_digit _ c (List.take_subset _ _ h))
            exact ⟨this.2.2.2.2.1, this.2.2.2.2.2⟩
          · simp only [List.mem_cons] at h
            rcases h with rfl | h
            · exact ⟨by decide, by decide⟩
            · have := digit_not_special (coeffDigits_all_digit _ c (List.drop_subset _ _ h))
              exact ⟨this.2.2.2.2.1, this.2.2.2.2.2⟩
  · unfold decExpPart at h
    split at h
    · simp at h
    · simp only [List.mem_cons] at h
      rcases h with rfl | h
      · exact ⟨by decide, by decide⟩
      · rcases h with rfl | h
        · split
          · exact ⟨by decide, by decide⟩
          · exact ⟨by decide, by decide⟩
        · have := digit_not_special (coeffDigits_all_digit _ c h)
          exact ⟨this.2.2.2.2.1, this.2.2.2.2.2⟩

/-- Round trip: parsing the string printed for a finite `Decimal` returns
exactly the same sign, coefficient and exponent. -/
theorem parseDec_toChars (x : PyDecimal) : parseDecChars x.toChars = Option.some x := by
  obtain ⟨sg, co, ex⟩ := x
  have hdne := coeffDigits_ne_nil co
  have hdall := coeffDigits_all_digit co
  obtain ⟨a, t, hbody, ha⟩ :=
    decBody_head (coeffDigits co) (decDotplace ex (coeffDigits co).length) hdne hdall
  have hws : ∀ c ∈ (PyDecimal.mk sg co ex).toChars, pyWhitespace c = false :=
    fun c hc => (toChars_not_stripped _ c hc).1
  unfold parseDecChars
  rw [stripP_eq_self hws]
  cases sg
  · have hTC : (PyDecimal.mk false co ex).toChars =
        decBody (coeffDigits co) (decDotplace ex (coeffDigits co).length) ++
          decExpPart (ex + ((coeffDigits co).length : Int) -
            decDotplace ex (coeffDigits co).length) := by
      unfold PyDecimal.toChars
      simp
    rw [hTC]
    have hfull : decBody (coeffDigits co) (decDotplace ex (coeffDigits co).length) ++
        decExpPart (ex + ((coeffDigits co).length : Int) -
          decDotplace ex (coeffDigits co).length) =
        a :: (t ++ decExpPart (ex + ((coeffDigits co).length : Int) -
          decDotplace ex (coeffDigits co).length)) := by
      rw [hbody]
      rfl
    rw [hfull, dropSign_head_digit ha, ← hfull]
    simp [parseUnsigned_decBody (coeffDigits co) ex hdne hdall, natFromDigits_coeffDigits]
  · have hTC : (PyDecimal.mk true co ex).toChars =
        '-' :: (decBody (coeffDigits co) (decDotplace ex (coeffDigits co).length) ++
          decExpPart (ex + ((coeffDigits co).length : Int) -
            decDotplace ex (coeffDigits co).length)) := by
      unfold PyDecimal.toChars
      simp
    rw [hTC]
    rw [show dropSign ('-' :: (decBody (coeffDigits co) (decDotplace ex (coeffDigits co).length) ++
        decExpPart (ex + ((coeffDigits co).length : Int) -
          decDotplace ex (coeffDigits co).length))) =
        (true, decBody (coeffDigits co) (decDotplace ex (coeffDigits co).length) ++
          decExpPart (ex + ((coeffDigits co).length : Int) -
            decDotplace ex (coeffDigits co).length)) from by simp [dropSign]]
    simp [parseUnsigned_decBody (coeffDigits co) ex hdne hdall, natFromDigits_coeffDigits]

/-!  The entity layer: `Category`, `Product`, `serialize`, `deserialize`. -/

/-- Enumeration of valid Product Categories (`class Category(Enum)`). -/
inductive Category where
  | UNKNOWN
  | CLOTHS
  | FOOD
  | HOUSEWARES
  | AUTOMOTIVE
  | TOOLS
deriving DecidableEq, Repr

/-- The numeric value of each variant (`UNKNOWN = 0`, ..., `TOOLS = 5`). -/
def Category.value : Category → Nat
  | .UNKNOWN => 0
  | .CLOTHS => 1
  | .FOOD => 2
  | .HOUSEWARES => 3
  | .AUTOMOTIVE => 4
  | .TOOLS => 5

/-- The `member.name` string of each Category variant. -/
def Category.pyName : Category → String
  | .UNKNOWN => "UNKNOWN"
  | .CLOTHS => "CLOTHS"
  | .FOOD => "FOOD"
  | .HOUSEWARES => "HOUSEWARES"
  | .AUTOMOTIVE => "AUTOMOTIVE"
  | .TOOLS => "TOOLS"

/-- Member lookup on the `Category` enum class: the variant named `s`. -/
def categoryMember (s : String) : Option Category :=
  if s = "UNKNOWN" then Option.some .UNKNOWN
  else if s = "CLOTHS" then Option.some .CLOTHS
  else if s = "FOOD" then Option.some .FOOD
  else if s = "HOUSEWARES" then Option.some .HOUSEWARES
  else if s = "AUTOMOTIVE" then Option.some .AUTOMOTIVE
  else if s = "TOOLS" then Option.some .TOOLS
  else Option.none

/-- Modelled from Python attribute lookup on the class object `Category`:
besides the six members, `getattr(Category, s)` also finds the attributes
the class inherits from `type`/`object`/`Enum` (for example `mro` resolves
to the bound `type.mro` method and raises nothing).  The list is a
representative subset of those inherited class-attribute names. -/
def categoryClassAttrs : List String :=
  ["mro", "__members__", "__name__", "__qualname__", "__doc__", "__module__",
   "__class__", "__bases__", "__dict__", "__mro__"]

/-- The value stored in `self.category` by `deserialize`: a `Category`
member, or — when `getattr` found a non-member class attribute such as
`mro` — some non-Category Python object. -/
inductive CategoryVal where
  | cat (c : Category)
  | pyObj (attr : String)
deriving DecidableEq, Repr

/-- Model of `getattr(Category, v)`: a member for a variant name; a non-Category
object for an inherited class-attribute name; `AttributeError(name)` for
any other string (as raised by the enum metaclass); `TypeError` when the
attribute name is not a string. -/
def getattrCategory (v : PyValue) : Except PyExn CategoryVal :=
  match v with
  | .str s =>
    match categoryMember s with
    | Option.some c => Except.ok (CategoryVal.cat c)
    | Option.none =>
      if s ∈ categoryClassAttrs then Except.ok (CategoryVal.pyObj s)
      else Except.error (PyExn.attributeError s)
  | _ => Except.error (PyExn.typeError "attribute name must be string")

/-- The `self.category.name` access used by `serialize`: defined for enum members
only (a non-member object has no `name` attribute). -/
def CategoryVal.nameAttr : CategoryVal → Option String
  | .cat c => Option.some c.pyName
  | .pyObj _ => Option.none

/-- Model of `Decimal(value)` on a payload value: strings are parsed (a malformed
string raises `decimal.InvalidOperation`); ints — and bools, which are
ints in Python — convert exactly; `None` raises `TypeError`. -/
def decimalOfPyValue : PyValue → Except PyExn PyDecimal
  | .str s =>
    match parseDecChars s.data with
    | Option.some d => Except.ok d
    | Option.none => Except.error (PyExn.invalidOperation "[<class 'decimal.ConversionSyntax'>]")
  | .int n => Except.ok ⟨decide (n < 0), n.natAbs, 0⟩
  | .bool b => Except.ok ⟨false, if b then 1 else 0, 0⟩
  | .none => Except.error (PyExn.typeError "conversion from NoneType to Decimal is not supported")

/-- Model of `bool(value)`: Python truthiness.  It never raises on these values;
a string is truthy exactly when it is non-empty. -/
def pyBool : PyValue → Bool
  | .none => false
  | .bool b => b
  | .int n => decide (n ≠ 0)
  | .str s => decide (s ≠ "")

/-- The wire representation: a decoded key-value payload. -/
def WireMap := List (String × PyValue)

/-- Model of `data[k]`: dictionary lookup. -/
def WireMap.get (m : WireMap) (k : String) : Option PyValue :=
  match List.find? (fun kv => kv.1 == k) m with
  | Option.some kv => Option.some kv.2
  | Option.none => Option.none

/-- The Product record.  `id` is `Option Int` (`None` until the store
assigns it); `name`/`description` hold whatever payload value was
assigned (the code does not type-check them); `category` holds whatever
`getattr` returned. -/
structure Product where
  id : Option Int
  name : PyValue
  description : PyValue
  price : PyDecimal
  available : Bool
  category : CategoryVal
deriving DecidableEq, Repr

/-- Model of `serialize(self)`: the wire map with `price` as its decimal string
and `category` as the variant name.  `Option.none` models the
`AttributeError` of `self.category.name` on a non-member object. -/
def Product.serialize (p : Product) : Option WireMap :=
  match p.category.nameAttr with
  | Option.some cn =>
    Option.some [("id", (match p.id with | Option.some i => PyValue.int i | Option.none => PyValue.none)),
      ("name", p.name), ("description", p.description),
      ("price", PyValue.str p.price.pyStr), ("available", PyValue.bool p.available),
      ("category", PyValue.str cn)]
  | Option.none => Option.none

/-- Outcome of `deserialize`: success, a raised `DataValidationError`
with its message, or an exception the `except` clauses do not catch
(such as `decimal.InvalidOperation`) propagating to the caller. -/
inductive DeserializeResult where
  | ok (p : Product)
  | dve (msg : String)
  | uncaught (e : PyExn)
deriving DecidableEq, Repr

/-- Is the result a raised `DataValidationError`? -/
def DeserializeResult.isDVE : DeserializeResult → Bool
  | .dve _ => true
  | _ => false

/-- Did `deserialize` return normally? -/
def DeserializeResult.isOk : DeserializeResult → Bool
  | .ok _ => true
  | _ => false

/-- The body of the `try` block of `deserialize`, in statement order:
look up and assign `name`, `description`, `price` (converted with
`Decimal`), `available` (coerced with `bool`), `category` (via
`getattr`).  The first exception wins.  `self.id` is never assigned. -/
def deserializeBody (p : Product) (data : WireMap) : Except PyExn Product :=
  match data.get "name" with
  | Option.none => Except.error (PyExn.keyError "name")
  | Option.some nameV =>
  match data.get "description" with
  | Option.none => Except.error (PyExn.keyError "description")
  | Option.some descV =>
  match data.get "price" with
  | Option.none => Except.error (PyExn.keyError "price")
  | Option.some priceV =>
  match decimalOfPyValue priceV with
  | Except.error e => Except.error e
  | Except.ok priceD =>
  match data.get "available" with
  | Option.none => Except.error (PyExn.keyError "available")
  | Option.some availV =>
  match data.get "category" with
  | Option.none => Except.error (PyExn.keyError "category")
  | Option.some catV =>
  match getattrCategory catV with
  | Except.error e => Except.error e
  | Except.ok catVal =>
    Except.ok { p with
      name := nameV
      description := descV
      price := priceD
      available := pyBool availV
      category := catVal }

/-- Model of `deserialize(self, data)`: run the `try` body, then translate
`KeyError`/`AttributeError`/`TypeError` into `DataValidationError` with
the messages of the `except` clauses; any other exception (notably
`decimal.InvalidOperation` from a malformed price string) is uncaught. -/
def Product.deserialize (p : Product) (data : WireMap) : DeserializeResult :=
  match deserializeBody p data with
  | Except.ok q => DeserializeResult.ok q
  | Except.error (PyExn.keyError k) => DeserializeResult.dve ("Missing field: " ++ k)
  | Except.error (PyExn.attributeError m) => DeserializeResult.dve ("Invalid attribute: " ++ m)
  | Except.error (PyExn.typeError m) => DeserializeResult.dve ("Invalid data: " ++ m)
  | Except.error e => DeserializeResult.uncaught e

/-!  The query/persistence layer: the relational store behind the
SQLAlchemy session.  The store itself is external to the repository; it
is modelled as the list of persisted rows plus the autoincrement counter
of the integer primary key, with commits applied synchronously. -/

/-- Python truthiness of the id check `if not self.id`: true for `None`
and for `0`. -/
def pyIdEmpty (o : Option Int) : Bool :=
  match o with
  | Option.none => true
  | Option.some i => decide (i = 0)

/-- Has the row a store-assigned id below the counter? -/
def idFresh (o : Option Int) (n : Int) : Bool :=
  match o with
  | Option.some i => decide (i < n)
  | Option.none => false

/-- The backing relational store. -/
structure Store where
  rows : List Product
  nextId : Int
deriving Repr

/-- Store invariant maintained by a primary-key sequence: every persisted
row has an id, ids are below the counter, and ids are pairwise
distinct. -/
def Store.wf (s : Store) : Prop :=
  (∀ q ∈ s.rows, idFresh q.id s.nextId = true) ∧
    s.rows.Pairwise (fun a b => a.id ≠ b.id)

/-- Model of `create(self)`: `self.id = None`, then `session.add`/`commit`, on
which the store assigns the next primary-key value and persists the
row. -/
def Product.create (p : Product) (s : Store) : Product × Store :=
  ({ p with id := Option.some s.nextId },
   { rows := s.rows ++ [{ p with id := Option.some s.nextId }], nextId := s.nextId + 1 })

/-- Model of `update(self)`: raise `DataValidationError` when `not self.id`,
leaving the store untouched; otherwise `commit` flushes the object's
in-memory state to the row with its primary key. -/
def Product.update (p : Product) (s : Store) : Option String × Store :=
  if pyIdEmpty p.id then (Option.some "Update called with empty ID field", s)
  else (Option.none, { s with rows := s.rows.map (fun q => if q.id = p.id then p else q) })

/-- Model of `delete(self)`: `session.delete`/`commit` removes the row with the
object's primary key. -/
def Product.delete (p : Product) (s : Store) : Store :=
  { s with rows := s.rows.filter (fun q => decide (q.id ≠ p.id)) }

/-- Model of `all()`. -/
def Product.all (s : Store) : List Product := s.rows

/-- Model of `find(product_id)`: `query.get` returns the row with that primary
key, or `None`; it never raises on a missing id. -/
def Product.find (s : Store) (i : Int) : Option Product :=
  s.rows.find? (fun q => decide (q.id = Option.some i))

/-- Model of `find_by_name(name)`: exact equality filter. -/
def Product.find_by_name (s : Store) (n : PyValue) : List Product :=
  s.rows.filter (fun q => decide (q.name = n))

/-- Numeric value of a decimal: the comparison used by the SQL equality
`cls.price == price` (numeric equality, so trailing zeros are
irrelevant). -/
def PyDecimal.val (x : PyDecimal) : ℚ :=
  (if x.sign then -1 else 1) * (x.coeff : ℚ) *
    (if 0 ≤ x.exp then (10 : ℚ) ^ x.exp.toNat else 1 / (10 : ℚ) ^ (-x.exp).toNat)

/-- The argument of `find_by_price`: a `Decimal` value or a string. -/
inductive PriceArg where
  | dec (d : PyDecimal)
  | str (s : String)

/-- Model of `find_by_price(price)`: a string argument is first stripped of
surrounding spaces and double quotes, then converted with `Decimal`
(which raises `InvalidOperation` on a malformed remainder); rows are
filtered by exact price equality. -/
def Product.find_by_price (s : Store) (price : PriceArg) : Except PyExn (List Product) :=
  match price with
  | .dec d => Except.ok (s.rows.filter (fun q => decide (q.price.val = d.val)))
  | .str str =>
    match parseDecChars (stripP spaceQuote str.data) with
    | Option.some d => Except.ok (s.rows.filter (fun q => decide (q.price.val = d.val)))
    | Option.none => Except.error (PyExn.invalidOperation "[<class 'decimal.ConversionSyntax'>]")

/-- Model of `find_by_availability(available=True)`. -/
def Product.find_by_availability (s : Store) (b : Bool) : List Product :=
  s.rows.filter (fun q => q.available == b)

/-- Model of `find_by_category(category=Category.UNKNOWN)`. -/
def Product.find_by_category (s : Store) (c : Category) : List Product :=
  s.rows.filter (fun q => decide (q.category = CategoryVal.cat c))

lemma categoryMember_pyName (c : Category) : categoryMember c.pyName = Option.some c := by
  cases c <;> rfl

lemma deserializeBody_id {p : Product} {data : WireMap} {q : Product}
    (h : deserializeBody p data = Except.ok q) : q.id = p.id := by
  unfold deserializeBody at h
  repeat' split at h
  all_goals cases h
  rfl

/-- C5: on success, `deserialize` returns the product with every data
field overwritten but `id` untouched. -/
theorem C5_deserialize_preserves_id (p : Product) (data : WireMap) (r : Product)
    (h : p.deserialize data = DeserializeResult.ok r) : r.id = p.id := by
  unfold Product.deserialize at h
  cases hb : deserializeBody p data with
  | ok q =>
    rw [hb] at h
    cases h
    exact deserializeBody_id hb
  | error e =>
    rw [hb] at h
    cases e <;> cases h

/-- C1: serializing a valid Product (category a real variant) and
deserializing the result reproduces name, description, price, available
and category exactly; the price survives the decimal-string form. -/
theorem C1_serialize_deserialize_roundtrip (p q : Product) (c : Category)
    (hc : p.category = CategoryVal.cat c) :
    ∃ w r, p.serialize = Option.some w ∧ q.deserialize w = DeserializeResult.ok r ∧
      r.name = p.name ∧ r.description = p.description ∧ r.price = p.price ∧
      r.available = p.available ∧ r.category = p.category := by
  refine ⟨[("id", (match p.id with | Option.some i => PyValue.int i | Option.none => PyValue.none)),
      ("name", p.name), ("description", p.description),
      ("price", PyValue.str p.price.pyStr), ("available", PyValue.bool p.available),
      ("category", PyValue.str c.pyName)],
    { q with
      name := p.name
      description := p.description
      price := p.price
      available := p.available
      category := CategoryVal.cat c }, ?_, ?_, rfl, rfl, rfl, rfl, hc.symm⟩
  · unfold Product.serialize
    rw [hc]
    rfl
  · simp [Product.deserialize, deserializeBody, WireMap.get, List.find?, decimalOfPyValue,
      getattrCategory, categoryMember_pyName, parseDec_toChars, pyBool, PyDecimal.pyStr]

/-- The decimal 19.99. -/
def sampleDec : PyDecimal := ⟨false, 1999, -2⟩

/-- A fresh in-memory product used as a deserialization target. -/
def blankProduct : Product :=
  ⟨Option.none, PyValue.none, PyValue.none, ⟨false, 0, 0⟩, true, CategoryVal.cat Category.UNKNOWN⟩

/-- A fully populated valid product. -/
def hatProduct : Product :=
  ⟨Option.some 7, PyValue.str "Hat", PyValue.str "A red hat", sampleDec, true,
    CategoryVal.cat Category.CLOTHS⟩

theorem C1_witness :
    ∃ w r, hatProduct.serialize = Option.some w ∧
      blankProduct.deserialize w = DeserializeResult.ok r ∧
      r.name = hatProduct.name ∧ r.description = hatProduct.description ∧
      r.price = hatProduct.price ∧ r.available = hatProduct.available ∧
      r.category = hatProduct.category :=
  C1_serialize_deserialize_roundtrip hatProduct blankProduct Category.CLOTHS rfl

/-- A well-formed payload. -/
def okData : WireMap :=
  [("name", PyValue.str "Hat"), ("description", PyValue.str "A red hat"),
   ("price", PyValue.str "19.99"), ("available", PyValue.bool true),
   ("category", PyValue.str "FOOD")]

/-- The product produced by deserializing `okData` into `blankProduct`. -/
def okResult : Product :=
  ⟨Option.none, PyValue.str "Hat", PyValue.str "A red hat", sampleDec, true,
    CategoryVal.cat Category.FOOD⟩

theorem C5_witness :
    blankProduct.deserialize okData = DeserializeResult.ok okResult ∧
    okResult.id = blankProduct.id :=
  ⟨rfl, C5_deserialize_preserves_id blankProduct okData okResult rfl⟩

/-- A payload whose price string does not parse as a decimal. -/
def badPriceData : WireMap :=
  [("name", PyValue.str "Hat"), ("description", PyValue.str "A red hat"),
   ("price", PyValue.str "abc"), ("available", PyValue.bool true),
   ("category", PyValue.str "FOOD")]

/-- C2 counterexample: with price `"abc"`, `Decimal` raises
`decimal.InvalidOperation`, which the `except` clauses of `deserialize`
do not catch — no `DataValidationError` is raised. -/
theorem C2_counterexample :
    blankProduct.deserialize badPriceData =
      DeserializeResult.uncaught (PyExn.invalidOperation "[<class 'decimal.ConversionSyntax'>]") ∧
    (blankProduct.deserialize badPriceData).isDVE = false :=
  ⟨rfl, rfl⟩

/-- C2 amended: a price of a non-convertible type (`None`) does fail with
`DataValidationError` (via `TypeError`), but a price string that is not
parseable as a decimal escapes as an uncaught `decimal.InvalidOperation`;
`bool(available)` never raises, so no payload fails on `available`. -/
theorem C2_amended_price_failure_modes (p : Product) (data : WireMap) (nv dv : PyValue)
    (h1 : data.get "name" = Option.some nv) (h2 : data.get "description" = Option.some dv) :
    (data.get "price" = Option.some PyValue.none →
      p.deserialize data =
        DeserializeResult.dve "Invalid data: conversion from NoneType to Decimal is not supported") ∧
    (∀ s, data.get "price" = Option.some (PyValue.str s) → parseDecChars s.data = Option.none →
      p.deserialize data =
        DeserializeResult.uncaught (PyExn.invalidOperation "[<class 'decimal.ConversionSyntax'>]")) := by
  constructor
  · intro h3
    unfold Product.deserialize deserializeBody
    simp only [h1, h2, h3]
    rfl
  · intro s h3 hp
    unfold Product.deserialize deserializeBody
    simp only [h1, h2, h3, decimalOfPyValue, hp]

/-- A payload whose price is `None`. -/
def nonePriceData : WireMap :=
  [("name", PyValue.str "Hat"), ("description", PyValue.str "A red hat"),
   ("price", PyValue.none), ("available", PyValue.bool true),
   ("category", PyValue.str "FOOD")]

theorem C2_amended_witness :
    blankProduct.deserialize nonePriceData =
      DeserializeResult.dve "Invalid data: conversion from NoneType to Decimal is not supported" :=
  (C2_amended_price_failure_modes blankProduct nonePriceData (PyValue.str "Hat")
    (PyValue.str "A red hat") rfl rfl).1 rfl

/-- A payload missing `available` whose price string is malformed. -/
def missingAvailableData : WireMap :=
  [("name", PyValue.str "Hat"), ("description", PyValue.str "A red hat"),
   ("price", PyValue.str "abc"), ("category", PyValue.str "FOOD")]

/-- C3 counterexample: this payload is missing the required key
`available`, yet `deserialize` does not fail with a
`DataValidationError` naming it — the malformed price is hit first and
escapes as an uncaught `decimal.InvalidOperation`. -/
theorem C3_counterexample :
    missingAvailableData.get "available" = Option.none ∧
    blankProduct.deserialize missingAvailableData =
      DeserializeResult.uncaught (PyExn.invalidOperation "[<class 'decimal.ConversionSyntax'>]") ∧
    (blankProduct.deserialize missingAvailableData).isDVE = false :=
  ⟨rfl, rfl, rfl⟩

/-- C3 amended: `deserialize` reports `Missing field: k` for the first
missing key in the statement order name, description, price, available,
category, provided every value it processes before reaching that key
converts successfully (for `available`/`category` this requires the
present price value to convert; a malformed price fails first). -/
theorem C3_amended_first_missing_key (p : Product) (data : WireMap) :
    (data.get "name" = Option.none →
      p.deserialize data = DeserializeResult.dve "Missing field: name") ∧
    (∀ nv, data.get "name" = Option.some nv → data.get "description" = Option.none →
      p.deserialize data = DeserializeResult.dve "Missing field: description") ∧
    (∀ nv dv, data.get "name" = Option.some nv → data.get "description" = Option.some dv →
      data.get "price" = Option.none →
      p.deserialize data = DeserializeResult.dve "Missing field: price") ∧
    (∀ nv dv pv d, data.get "name" = Option.some nv → data.get "description" = Option.some dv →
      data.get "price" = Option.some pv → decimalOfPyValue pv = Except.ok d →
      data.get "available" = Option.none →
      p.deserialize data = DeserializeResult.dve "Missing field: available") ∧
    (∀ nv dv pv d av, data.get "name" = Option.some nv → data.get "description" = Option.some dv →
      data.get "price" = Option.some pv → decimalOfPyValue pv = Except.ok d →
      data.get "available" = Option.some av → data.get "category" = Option.none →
      p.deserialize data = DeserializeResult.dve "Missing field: category") := by
  refine ⟨?_, ?_, ?_, ?_, ?_⟩
  · intro h1
    unfold Product.deserialize deserializeBody
    rw [h1]
    rfl
  · intro nv h1 h2
    unfold Product.deserialize deserializeBody
    rw [h1, h2]
    rfl
  · intro nv dv h1 h2 h3
    unfold Product.deserialize deserializeBody
    rw [h1, h2, h3]
    rfl
  · intro nv dv pv d h1 h2 h3 h4 h5
    unfold Product.deserialize deserializeBody
    simp only [h1, h2, h3, h4, h5]
    rfl
  · intro nv dv pv d av h1 h2 h3 h4 h5 h6
    unfold Product.deserialize deserializeBody
    simp only [h1, h2, h3, h4, h5, h6]
    rfl

theorem C3_amended_witness :
    Product.deserialize blankProduct ([] : WireMap) = DeserializeResult.dve "Missing field: name" :=
  (C3_amended_first_missing_key blankProduct []).1 rfl

/-- A payload naming the inherited class attribute `mro` as category. -/
def mroData : WireMap :=
  [("name", PyValue.str "Hat"), ("description", PyValue.str "A red hat"),
   ("price", PyValue.str "19.99"), ("available", PyValue.bool true),
   ("category", PyValue.str "mro")]

/-- C4 counterexample: `"mro"` is not one of the six variant names, yet
`getattr(Category, "mro")` finds the inherited `type.mro` method, so
`deserialize` succeeds (storing a non-Category object) instead of
raising a `DataValidationError`. -/
theorem C4_counterexample :
    blankProduct.deserialize mroData =
      DeserializeResult.ok { blankProduct with
        name := PyValue.str "Hat"
        description := PyValue.str "A red hat"
        price := sampleDec
        available := true
        category := CategoryVal.pyObj "mro" } ∧
    (blankProduct.deserialize mroData).isDVE = false :=
  ⟨rfl, rfl⟩

/-- C4 amended: a category string that names neither a variant nor an
inherited class attribute of `Category` makes `deserialize` fail with a
`DataValidationError` naming the invalid value; no default category is
substituted.  (Strings naming inherited class attributes, such as
`"mro"`, instead succeed silently — see the counterexample.) -/
theorem C4_amended_unknown_category (p : Product) (data : WireMap) (nv dv pv av : PyValue)
    (d : PyDecimal) (s : String)
    (h1 : data.get "name" = Option.some nv) (h2 : data.get "description" = Option.some dv)
    (h3 : data.get "price" = Option.some pv) (h4 : decimalOfPyValue pv = Except.ok d)
    (h5 : data.get "available" = Option.some av)
    (h6 : data.get "category" = Option.some (PyValue.str s))
    (hm : categoryMember s = Option.none) (ha : s ∉ categoryClassAttrs) :
    p.deserialize data = DeserializeResult.dve ("Invalid attribute: " ++ s) := by
  unfold Product.deserialize deserializeBody
  simp only [h1, h2, h3, h4, h5, h6, getattrCategory, hm, if_neg ha]

/-- A payload with an unrecognized category name. -/
def bogusCategoryData : WireMap :=
  [("name", PyValue.str "Hat"), ("description", PyValue.str "A red hat"),
   ("price", PyValue.str "19.99"), ("available", PyValue.bool true),
   ("category", PyValue.str "BOGUS")]

theorem C4_amended_witness :
    blankProduct.deserialize bogusCategoryData =
      DeserializeResult.dve "Invalid attribute: BOGUS" :=
  C4_amended_unknown_category blankProduct bogusCategoryData (PyValue.str "Hat")
    (PyValue.str "A red hat") (PyValue.str "19.99") (PyValue.bool true) sampleDec "BOGUS"
    rfl rfl rfl rfl rfl rfl rfl (by decide)

/-- C10: `available` is coerced with `bool()` truthiness: any non-empty
string — including `"false"` — makes the deserialized product available;
the coercion itself never raises on payload values. -/
theorem C10_available_truthiness (p : Product) (data : WireMap) (nv dv pv cv : PyValue)
    (d : PyDecimal) (c : Category) (s : String)
    (h1 : data.get "name" = Option.some nv) (h2 : data.get "description" = Option.some dv)
    (h3 : data.get "price" = Option.some pv) (h4 : decimalOfPyValue pv = Except.ok d)
    (h5 : data.get "available" = Option.some (PyValue.str s)) (hs : s ≠ "")
    (h6 : data.get "category" = Option.some cv)
    (h7 : getattrCategory cv = Except.ok (CategoryVal.cat c)) :
    ∃ r, p.deserialize data = DeserializeResult.ok r ∧ r.available = true := by
  unfold Product.deserialize deserializeBody
  simp only [h1, h2, h3, h4, h5, h6, h7]
  refine ⟨_, rfl, ?_⟩
  simp [pyBool, hs]

/-- A payload whose `available` is the string `"false"`. -/
def falseStringData : WireMap :=
  [("name", PyValue.str "Hat"), ("description", PyValue.str "A red hat"),
   ("price", PyValue.str "19.99"), ("available", PyValue.str "false"),
   ("category", PyValue.str "FOOD")]

theorem C10_witness :
    ∃ r, blankProduct.deserialize falseStringData = DeserializeResult.ok r ∧
      r.available = true :=
  C10_available_truthiness blankProduct falseStringData (PyValue.str "Hat")
    (PyValue.str "A red hat") (PyValue.str "19.99") (PyValue.str "FOOD") sampleDec
    Category.FOOD "false" rfl rfl rfl rfl rfl (by decide) rfl rfl

section StoreLemmas

lemma find?_append_none {α : Type} {f : α → Bool} {l1 l2 : List α}
    (h : List.find? f l1 = Option.none) :
    List.find? f (l1 ++ l2) = List.find? f l2 := by
  induction l1 with
  | nil => rfl
  | cons a t ih =>
    cases hfa : f a with
    | true =>
      rw [List.find?_cons_of_pos _ hfa] at h
      cases h
    | false =>
      rw [List.find?_cons_of_neg _ (by simp [hfa])] at h
      rw [List.cons_append, List.find?_cons_of_neg _ (by simp [hfa])]
      exact ih h

lemma find?_mem_unique {i : Int} {rows : List Product} {q : Product}
    (hq : q ∈ rows) (hqi : q.id = Option.some i)
    (hp : rows.Pairwise (fun a b => a.id ≠ b.id)) :
    List.find? (fun x => decide (x.id = Option.some i)) rows = Option.some q := by
  induction rows with
  | nil => simp at hq
  | cons a t ih =>
    rcases List.mem_cons.1 hq with rfl | hq'
    · exact List.find?_cons_of_pos _ (by simp [hqi])
    · have hpc := List.pairwise_cons.1 hp
      have hane : ¬((fun x => decide (x.id = Option.some i)) a = true) := by
        simp only [decide_eq_true_eq]
        intro he
        exact hpc.1 q hq' (he.trans hqi.symm)
      rw [@List.find?_cons_of_neg _ (fun x => decide (x.id = Option.some i)) a t hane]
      exact ih hq' hpc.2

lemma find?_map_update {p : Product} {i : Int} (hi : p.id = Option.some i) (rows : List Product)
    (hex : ∃ q ∈ rows, q.id = Option.some i) :
    List.find? (fun q => decide (q.id = Option.some i))
      (rows.map (fun q => if q.id = p.id then p else q)) = Option.some p := by
  induction rows with
  | nil => simp at hex
  | cons a t ih =>
    rw [List.map_cons]
    by_cases ha : a.id = p.id
    · rw [if_pos ha]
      exact List.find?_cons_of_pos _ (by simp [hi])
    · rw [if_neg ha]
      have hane : ¬((fun q => decide (q.id = Option.some i)) a = true) := by
        simp only [decide_eq_true_eq]
        intro he
        exact ha (he.trans hi.symm)
      rw [@List.find?_cons_of_neg _ (fun q => decide (q.id = Option.some i)) a
        (t.map fun q => if q.id = p.id then p else q) hane]
      apply ih
      rcases hex with ⟨q, hq, hqi⟩
      rcases List.mem_cons.1 hq with rfl | hq'
      · exact absurd (hqi.trans hi.symm) ha
      · exact ⟨q, hq', hqi⟩

end StoreLemmas

/-- C6: `create` overwrites any pre-set id with the next store-assigned
key (the `self.id = None` step makes the pre-set value irrelevant), and
the created record is visible to a subsequent `find` on the new id.  The
hypotheses are the primary-key invariant: existing ids — hence any
pre-set id, which the lifecycle only ever obtains from an earlier
`create` — lie below the sequence counter. -/
theorem C6_create_assigns_fresh_id (p : Product) (s : Store) (hwf : s.wf) :
    (p.create s).1.id = Option.some s.nextId ∧
    (∀ j, p.id = Option.some j → j < s.nextId → (p.create s).1.id ≠ Option.some j) ∧
    Product.find (p.create s).2 s.nextId = Option.some (p.create s).1 := by
  refine ⟨rfl, ?_, ?_⟩
  · intro j hj hlt heq
    rw [show (p.create s).1.id = Option.some s.nextId from rfl] at heq
    injection heq with h
    omega
  · unfold Product.find Product.create
    have hnone : List.find? (fun q => decide (q.id = Option.some s.nextId)) s.rows =
        Option.none := by
      apply List.find?_eq_none.2
      intro x hx
      simp only [decide_eq_true_eq]
      intro he
      have hf := hwf.1 x hx
      rw [he] at hf
      simp [idFresh] at hf
    rw [find?_append_none hnone]
    simp

/-- C7: `update` on an object whose id is falsy (None or 0) raises the
validation error before any store interaction, so the store is returned
unchanged; with a real id the commit flushes the in-memory state onto
the row with that primary key. -/
theorem C7_update_requires_id (p : Product) (s : Store) :
    (pyIdEmpty p.id = true →
      p.update s = (Option.some "Update called with empty ID field", s)) ∧
    (pyIdEmpty p.id = false → (p.update s).1 = Option.none ∧
      ∀ i, p.id = Option.some i → (∃ q ∈ s.rows, q.id = Option.some i) →
        Product.find (p.update s).2 i = Option.some p) := by
  constructor
  · intro h
    unfold Product.update
    rw [if_pos h]
  · intro h
    have hcond : ¬(pyIdEmpty p.id = true) := by simp [h]
    refine ⟨?_, ?_⟩
    · unfold Product.update
      rw [if_neg hcond]
    · intro i hi hex
      unfold Product.update Product.find
      rw [if_neg hcond]
      exact find?_map_update hi s.rows hex

/-- C8: `find` returns `None` — it does not raise — for an id not in the
store, in particular for an id whose record was created and then
deleted; for a stored id it returns exactly the stored record. -/
theorem C8_find_semantics (s : Store) (i : Int) (p : Product) :
    ((∀ q ∈ s.rows, q.id ≠ Option.some i) → Product.find s i = Option.none) ∧
    (∀ q, q ∈ s.rows → q.id = Option.some i →
      s.rows.Pairwise (fun a b => a.id ≠ b.id) → Product.find s i = Option.some q) ∧
    Product.find (Product.delete (p.create s).1 (p.create s).2) s.nextId = Option.none := by
  refine ⟨?_, ?_, ?_⟩
  · intro h
    apply List.find?_eq_none.2
    intro x hx
    simp only [decide_eq_true_eq]
    exact h x hx
  · intro q hq hqi hp
    exact find?_mem_unique hq hqi hp
  · unfold Product.find Product.delete Product.create
    apply List.find?_eq_none.2
    intro x hx
    simp only [decide_eq_true_eq]
    have hmem := (List.mem_filter.1 hx).2
    simp only [decide_eq_true_eq] at hmem
    exact hmem

lemma toChars_ne_nil (x : PyDecimal) : x.toChars ≠ [] := by
  obtain ⟨a, t, hbody, ha⟩ := decBody_head (coeffDigits x.coeff)
    (decDotplace x.exp (coeffDigits x.coeff).length) (coeffDigits_ne_nil _)
    (coeffDigits_all_digit _)
  unfold PyDecimal.toChars
  rw [hbody]
  simp

/-- C9: `find_by_price` with the decimal string of `d` wrapped in any
surrounding spaces and double quotes returns exactly the rows returned
for the decimal value `d` itself: the strip removes the wrapping and the
conversion restores `d` exactly. -/
theorem C9_find_by_price_string_eq (s : Store) (d : PyDecimal) (pre post : List Char)
    (hpre : ∀ c ∈ pre, spaceQuote c = true) (hpost : ∀ c ∈ post, spaceQuote c = true) :
    Product.find_by_price s (PriceArg.str (String.mk (pre ++ d.toChars ++ post))) =
      Product.find_by_price s (PriceArg.dec d) := by
  have hparse : parseDecChars (stripP spaceQuote (String.mk (pre ++ d.toChars ++ post)).data) =
      Option.some d := by
    rw [show (String.mk (pre ++ d.toChars ++ post)).data = pre ++ d.toChars ++ post from rfl]
    rw [stripP_wrap hpre hpost (fun c hc => (toChars_not_stripped d c hc).2) (toChars_ne_nil d)]
    exact parseDec_toChars d
  simp only [Product.find_by_price, hparse]

/-- The empty store with the key sequence at 1. -/
def emptyStore : Store := ⟨[], 1⟩

/-- A product carrying a stale pre-set id 0. -/
def seededProduct : Product := { hatProduct with id := Option.some 0 }

theorem C6_witness :
    (seededProduct.create emptyStore).1.id = Option.some emptyStore.nextId ∧
    (seededProduct.create emptyStore).1.id ≠ Option.some 0 ∧
    Product.find (seededProduct.create emptyStore).2 emptyStore.nextId =
      Option.some (seededProduct.create emptyStore).1 := by
  have hwf : emptyStore.wf := ⟨fun q hq => absurd hq (List.not_mem_nil q), List.Pairwise.nil⟩
  have h := C6_create_assigns_fresh_id seededProduct emptyStore hwf
  exact ⟨h.1, h.2.1 0 rfl (by decide), h.2.2⟩

/-- A persisted product with id 42. -/
def storedProduct : Product := { hatProduct with id := Option.some 42 }

/-- The stale row for id 42 before the update. -/
def staleRow : Product := { storedProduct with description := PyValue.str "old" }

/-- A store holding the stale row. -/
def oneStore : Store := ⟨[staleRow], 43⟩

theorem C7_witness :
    blankProduct.update oneStore = (Option.some "Update called with empty ID field", oneStore) ∧
    (storedProduct.update oneStore).1 = Option.none ∧
    Product.find (storedProduct.update oneStore).2 42 = Option.some storedProduct := by
  have h2 := (C7_update_requires_id storedProduct oneStore).2 (by decide)
  exact ⟨(C7_update_requires_id blankProduct oneStore).1 rfl, h2.1,
    h2.2 42 rfl ⟨staleRow, by simp [oneStore], rfl⟩⟩

theorem C8_witness :
    Product.find emptyStore 5 = Option.none ∧
    Product.find oneStore 42 = Option.some staleRow ∧
    Product.find (Product.delete (hatProduct.create emptyStore).1
      (hatProduct.create emptyStore).2) emptyStore.nextId = Option.none := by
  refine ⟨(C8_find_semantics emptyStore 5 hatProduct).1
      (fun q hq => absurd hq (List.not_mem_nil q)), ?_,
    (C8_find_semantics emptyStore 5 hatProduct).2.2⟩
  exact (C8_find_semantics oneStore 42 hatProduct).2.1 staleRow (by simp [oneStore]) rfl
    (by simp [oneStore])

/-- A store with one 19.99-priced product. -/
def priceStore : Store := ⟨[hatProduct], 8⟩

theorem C9_witness :
    Product.find_by_price priceStore
        (PriceArg.str (String.mk ([' ', '"'] ++ sampleDec.toChars ++ ['"', ' ']))) =
      Product.find_by_price priceStore (PriceArg.dec sampleDec) :=
  C9_find_by_price_string_eq priceStore sampleDec [' ', '"'] ['"', ' ']
    (by decide) (by decide)
